import Mathlib

/-!
Shallow embedding of `src/Ping_Connectivity_Report.py` (class `ConnectivityTester`).

Strings are modelled as `List Char` (ASCII; the program only manipulates ASCII
command output and targets).  Machine floats produced by Python's `float()` on
decimal literals are modelled as exact rationals: every concrete value appearing
in the claims (10.0, 12.5, 15.0, measured latencies) is a short decimal, so the
rational model agrees with IEEE semantics on everything proved here.  Python
exceptions are modelled explicitly: fallible conversions return `Option`, and
the `try/except` in `extract_ping_stats` is an escape flag threaded through the
line loop.  External effects (DNS lookup, subprocess, TCP connect, the wall
clock) are oracle functions collected in an `Env`, and `test_target` also emits
an event trace recording which external probes were performed.
-/

/-- The two platform families distinguished by `platform.system().lower() == "windows"`. -/
inductive Platform where
  | windows
  | unix
deriving DecidableEq

/-- Python whitespace for no-argument `str.split()`. -/
def pyIsSpace (c : Char) : Bool :=
  c = ' ' || c = '\t' || c = '\n' || c = '\r' || c = '\x0b' || c = '\x0c'

/-- Python `str.isdigit()` (ASCII fragment): nonempty and all characters are digits. -/
def pyIsdigit (s : List Char) : Bool :=
  !s.isEmpty && s.all Char.isDigit

/-- Python `sep`-splitting `str.split(sep)` for a one-character separator:
splits at every occurrence, keeping empty pieces; the empty string yields `[""]`. -/
def splitChar (c : Char) : List Char → List (List Char)
  | [] => [[]]
  | x :: xs =>
    if x = c then [] :: splitChar c xs
    else
      match splitChar c xs with
      | [] => [[x]]
      | y :: ys => (x :: y) :: ys

/-- Worker for Python's no-argument `str.split()`: `acc` is the reversed
current token. -/
def pySplitWsA : List Char → List Char → List (List Char)
  | [], acc => if acc = [] then [] else [acc.reverse]
  | c :: cs, acc =>
    if pyIsSpace c then
      if acc = [] then pySplitWsA cs [] else acc.reverse :: pySplitWsA cs []
    else pySplitWsA cs (c :: acc)

/-- Python no-argument `str.split()`: split on runs of whitespace, dropping empties. -/
def pySplitWs (s : List Char) : List (List Char) :=
  pySplitWsA s []

/-- Substring containment, Python's `pat in s`. -/
def containsSub (pat : List Char) : List Char → Bool
  | [] => pat.isPrefixOf []
  | c :: cs => pat.isPrefixOf (c :: cs) || containsSub pat cs

/-- Numeric value of a digit string (most significant first); leading zeros allowed. -/
def digitsToNat (ds : List Char) : Nat :=
  ds.foldl (fun n c => 10 * n + (c.toNat - 48)) 0

/-- Well-formed digit body of a Python `int()` literal: digits with single
underscores strictly between digits (tail position after the first digit). -/
def intTailOk : List Char → Bool
  | [] => true
  | c :: cs =>
    if c.isDigit then intTailOk cs
    else if c = '_' then
      match cs with
      | [] => false
      | d :: cs2 => d.isDigit && intTailOk cs2
    else false

/-- Well-formed digit body of a Python `int()` literal (no sign). -/
def intBodyOk : List Char → Bool
  | [] => false
  | c :: cs => c.isDigit && intTailOk cs

/-- Digit body to value, after dropping the underscores Python permits. -/
def pyNatBody (s : List Char) : Option Nat :=
  if intBodyOk s then some (digitsToNat (s.filter (fun c => c ≠ '_'))) else none

/-- Python `int(s)` on whitespace-free tokens: optional sign, then digits with
optional single underscores between digits; `none` models `ValueError`. -/
def pyInt : List Char → Option Int
  | [] => none
  | c :: cs =>
    if c = '-' then (pyNatBody cs).map (fun n => -(n : Int))
    else if c = '+' then (pyNatBody cs).map (fun n => (n : Int))
    else (pyNatBody (c :: cs)).map (fun n => (n : Int))

/-- Python `float(s)` restricted to the strings the `[\d.]+` capture can
produce (digits and dots): defined iff there is at least one digit and at most
one dot; `none` models `ValueError`.  The value is exact as a rational. -/
def pyFloat (s : List Char) : Option ℚ :=
  if s.any Char.isDigit && s.count '.' ≤ 1 then
    let intPart := s.takeWhile (fun c => c ≠ '.')
    let frac := (s.dropWhile (fun c => c ≠ '.')).drop 1
    some (mkRat (digitsToNat (intPart ++ frac)) (10 ^ frac.length))
  else none

/-- Attempt, at this exact position, the pattern `pre(\d+)post` where `pre` and
`post` are literals and the digit group is greedy.  Since no `post` used below
starts with a digit, only the maximal digit run can be followed by `post`, so
greedy-with-backtracking semantics coincide with taking the maximal run. -/
def matchLitDigitsLit (pre post s : List Char) : Option Nat :=
  if pre.isPrefixOf s then
    let rest := s.drop pre.length
    let ds := rest.takeWhile Char.isDigit
    if ds.isEmpty then none
    else if post.isPrefixOf (rest.dropWhile Char.isDigit) then some (digitsToNat ds)
    else none
  else none

/-- `re.search` for `pre(\d+)post`: leftmost starting position wins, as in
Python's `re` scanning semantics. -/
def reSearchLDL (pre post : List Char) : List Char → Option Nat
  | [] => matchLitDigitsLit pre post []
  | c :: cs => (matchLitDigitsLit pre post (c :: cs)).orElse fun _ => reSearchLDL pre post cs

/-- Attempt `time[<=](\d+)ms` at this exact position. -/
def matchTimeAt (s : List Char) : Option Nat :=
  if ("time=".data.isPrefixOf s || "time<".data.isPrefixOf s) then
    let rest := s.drop 5
    let ds := rest.takeWhile Char.isDigit
    if ds.isEmpty then none
    else if "ms".data.isPrefixOf (rest.dropWhile Char.isDigit) then some (digitsToNat ds)
    else none
  else none

/-- `re.search` for `time[<=](\d+)ms`. -/
def reSearchTime : List Char → Option Nat
  | [] => matchTimeAt []
  | c :: cs => (matchTimeAt (c :: cs)).orElse fun _ => reSearchTime cs

/-- Characters matched by the `[\d.]` class. -/
def isDigitDot (c : Char) : Bool := c.isDigit || c = '.'

/-- Attempt `= ([\d.]+)/([\d.]+)/([\d.]+)` at this exact position.  `/` is not
in the class, so each greedy group is exactly the maximal class run. -/
def matchTimesAt (s : List Char) : Option (List Char × List Char × List Char) :=
  if "= ".data.isPrefixOf s then
    let r := s.drop 2
    let g1 := r.takeWhile isDigitDot
    if g1.isEmpty then none
    else
      match r.dropWhile isDigitDot with
      | '/' :: r2 =>
        let g2 := r2.takeWhile isDigitDot
        if g2.isEmpty then none
        else
          match r2.dropWhile isDigitDot with
          | '/' :: r3 =>
            let g3 := r3.takeWhile isDigitDot
            if g3.isEmpty then none else some (g1, g2, g3)
          | _ => none
      | _ => none
  else none

/-- `re.search` for `= ([\d.]+)/([\d.]+)/([\d.]+)`. -/
def reSearchTimes : List Char → Option (List Char × List Char × List Char)
  | [] => matchTimesAt []
  | c :: cs => (matchTimesAt (c :: cs)).orElse fun _ => reSearchTimes cs

/-- The `ping_stats` dictionary, fields in source order; all default to zero. -/
structure PingStats where
  packets_sent : Int
  packets_received : Int
  packet_loss : Int
  min_time : ℚ
  max_time : ℚ
  avg_time : ℚ
deriving DecidableEq

/-- The all-zero initial statistics dictionary. -/
def stats0 : PingStats := ⟨0, 0, 0, 0, 0, 0⟩

/-- Literal `'Packets:'`. -/
def litPackets : List Char := "Packets:".data

/-- Literal `'Sent = '` (the prefix of the `Sent = (\d+)` pattern). -/
def litSent : List Char := "Sent = ".data

/-- Literal `'Received = '`. -/
def litReceived : List Char := "Received = ".data

/-- Literal `'% loss)'` (the suffix of the `\((\d+)% loss\)` pattern). -/
def litLossSuffix : List Char := "% loss)".data

/-- Literal `'time='` (the substring test guarding the per-reply branch). -/
def litTimeEq : List Char := "time=".data

/-- Literal `'Average'`. -/
def litAverage : List Char := "Average".data

/-- Literal `'Average = '`. -/
def litAvgEq : List Char := "Average = ".data

/-- Literal `'ms'`. -/
def litMs : List Char := "ms".data

/-- Literal `'packets transmitted'`. -/
def litPktTrans : List Char := "packets transmitted".data

/-- Literal `'min/avg/max'`. -/
def litMinAvgMax : List Char := "min/avg/max".data

/-- One iteration of the Windows parsing loop (lines 69-97 of the source).
No statement in this branch can raise: `int()` is only applied to `\d+`
captures, so the handler is total. -/
def windowsLine (line : List Char) (st : PingStats) : PingStats :=
  if containsSub litPackets line then
    let st :=
      match reSearchLDL litSent [] line with
      | some n => { st with packets_sent := (n : Int) }
      | none => st
    let st :=
      match reSearchLDL litReceived [] line with
      | some n => { st with packets_received := (n : Int) }
      | none => st
    match reSearchLDL ['('] litLossSuffix line with
    | some n => { st with packet_loss := (n : Int) }
    | none => st
  else if containsSub litTimeEq line then
    match reSearchTime line with
    | some t =>
      let st :=
        if st.min_time = 0 ∨ (t : ℚ) < st.min_time then { st with min_time := (t : ℚ) }
        else st
      if (t : ℚ) > st.max_time then { st with max_time := (t : ℚ) } else st
    | none => st
  else if containsSub litAverage line then
    match reSearchLDL litAvgEq litMs line with
    | some a => { st with avg_time := (a : ℚ) }
    | none => st
  else st

/-- One iteration of the Unix parsing loop (lines 101-116 of the source).
Returns the statistics as mutated so far, plus `true` when control reaches the
end of the iteration and `false` when a statement raised (`IndexError` from
`[0]`/`parts[1]`, `ValueError` from `int()`/`float()`), in which case the
enclosing `try` aborts the whole loop with the current statistics. -/
def unixLine (line : List Char) (st : PingStats) : PingStats × Bool :=
  if containsSub litPktTrans line then
    let parts := splitChar ',' line
    match (pySplitWs (parts.headD [])).head? with
    | none => (st, false)
    | some tok0 =>
      match pyInt tok0 with
      | none => (st, false)
      | some n =>
        let st := { st with packets_sent := n }
        match parts[1]? with
        | none => (st, false)
        | some p1 =>
          match (pySplitWs p1).head? with
          | none => (st, false)
          | some tok1 =>
            match pyInt tok1 with
            | none => (st, false)
            | some m =>
              let st := { st with packets_received := m }
              let st :=
                if parts.length > 2 then
                  match reSearchLDL [] ['%'] (parts.getD 2 []) with
                  | some l => { st with packet_loss := (l : Int) }
                  | none => st
                else st
              (st, true)
  else if containsSub litMinAvgMax line then
    match reSearchTimes line with
    | none => (st, true)
    | some (g1, g2, g3) =>
      match pyFloat g1 with
      | none => (st, false)
      | some a =>
        let st := { st with min_time := a }
        match pyFloat g2 with
        | none => (st, false)
        | some b =>
          let st := { st with avg_time := b }
          match pyFloat g3 with
          | none => (st, false)
          | some c => ({ st with max_time := c }, true)
  else (st, true)

/-- The Unix parsing loop: process lines until done or a statement raises;
the `except` clause returns the statistics accumulated so far either way. -/
def unixLoop : List (List Char) → PingStats → PingStats
  | [], st => st
  | l :: ls, st =>
    match unixLine l st with
    | (st2, true) => unixLoop ls st2
    | (st2, false) => st2

/-- `extract_ping_stats` (lines 54-121): split the output into lines and run
the platform's grammar; every exception is caught, so the result is total. -/
def extract_ping_stats (p : Platform) (ping_output : List Char) : PingStats :=
  let lines := splitChar '\n' ping_output
  match p with
  | Platform.windows => lines.foldl (fun st l => windowsLine l st) stats0
  | Platform.unix => unixLoop lines stats0

/-- Outcome of one `sock.connect_ex` attempt together with the elapsed wall
time `(time.time() - start_time) * 1000` the surrounding code measures:
either the call returns an error code normally, or some statement of the
`try` block raises. -/
inductive ConnectOutcome where
  | normal (code : Int) (elapsedMs : ℚ)
  | exn
deriving DecidableEq

/-- `test_port_connectivity` (lines 41-52): on a normal `connect_ex` return it
reports `(result == 0, response_time)`; any exception yields `(False, 0)`. -/
def test_port_connectivity (o : ConnectOutcome) : Bool × ℚ :=
  match o with
  | ConnectOutcome.normal code t => (code == 0, t)
  | ConnectOutcome.exn => (false, 0)

/-- A completed `subprocess.run` result: exit code and captured streams. -/
structure PingProcResult where
  returncode : Int
  stdout : List Char
  stderr : List Char
deriving DecidableEq

/-- External world oracles: the platform, `socket.gethostbyname` (`none` is
`gaierror`), the subprocess runner keyed by full command line (`none` is
`TimeoutExpired` or any other invocation failure, both of which
`ping_target` maps to `None`), and the TCP connect outcome per host and port. -/
structure Env where
  platform : Platform
  gethostbyname : List Char → Option (List Char)
  runProcess : List (List Char) → Option PingProcResult
  connect : List Char → Nat → ConnectOutcome

/-- External actions `test_target` can perform, in order. -/
inductive Event where
  | dnsLookup (host : List Char)
  | pingCall (target : List Char)
  | portProbe (host : List Char) (port : Nat)
deriving DecidableEq

/-- The ping command line built by `ping_target` (lines 19-22): `-n` on
Windows, `-c` elsewhere. -/
def ping_cmd (p : Platform) (count : Nat) (target : List Char) : List (List Char) :=
  match p with
  | Platform.windows => ["ping".data, "-n".data, (toString count).data, target]
  | Platform.unix => ["ping".data, "-c".data, (toString count).data, target]

/-- `ping_target` (lines 15-31): run the platform ping command; timeouts and
invocation failures are `none`. -/
def ping_target (env : Env) (target : List Char) (count : Nat := 4) : Option PingProcResult :=
  env.runProcess (ping_cmd env.platform count target)

/-- `test_dns_resolution` (lines 33-39). -/
def test_dns_resolution (env : Env) (hostname : List Char) : Option (List Char) :=
  env.gethostbyname hostname

/-- The `dns_resolution` sub-dictionary of a result record. -/
structure DnsResolution where
  success : Bool
  ip_address : Option (List Char)
deriving DecidableEq

/-- One entry of `port_tests`. -/
structure PortTest where
  port : Nat
  is_open : Bool
  response_time : ℚ
deriving DecidableEq

/-- The per-target `result_data` record (lines 128-135).  The `timestamp`
field (an uninterpreted wall-clock string) is omitted; no claim concerns it. -/
structure ResultData where
  target : List Char
  dns_resolution : Option DnsResolution
  ping_success : Bool
  ping_stats : Option PingStats
  port_tests : List PortTest
deriving DecidableEq

/-- The freshly initialised record: `dns_resolution = None`,
`ping_success = False`, `ping_stats = {}` (modelled `none`), `port_tests = []`. -/
def init_result (target : List Char) : ResultData :=
  { target := target
    dns_resolution := none
    ping_success := false
    ping_stats := none
    port_tests := [] }

/-- The IP-literal heuristic of line 138:
`target.replace(".", "").replace(":", "").isdigit()`. -/
def ipLiteralCheck (target : List Char) : Bool :=
  pyIsdigit ((target.filter (fun c => c ≠ '.')).filter (fun c => c ≠ ':'))

/-- The fixed port list of line 186. -/
def ports_to_test : List Nat := [80, 443, 53]

/-- The ping and port phases of `test_target` (lines 161-202), shared by the
two DNS-success paths.  `test_ip` is the value read back from
`result_data['dns_resolution']['ip_address']` at line 185, which both callers
set to the address stored in the record's `dns_resolution` field. -/
def pingAndPorts (env : Env) (target : List Char) (rd : ResultData) (test_ip : List Char)
    (evs : List Event) : ResultData × List Event :=
  let rd :=
    match ping_target env target with
    | none => rd
    | some r =>
      if r.returncode == 0 then
        { rd with ping_success := true
                  ping_stats := some (extract_ping_stats env.platform r.stdout) }
      else rd
  let rd :=
    { rd with port_tests := ports_to_test.map fun p =>
        let res := test_port_connectivity (env.connect test_ip p)
        { port := p, is_open := res.1, response_time := res.2 } }
  (rd, evs ++ [Event.pingCall target] ++ ports_to_test.map fun p => Event.portProbe test_ip p)

/-- `test_target` (lines 123-202): DNS stage with early return on resolution
failure, then ping and port stages.  Returns the record appended to
`self.results` together with the trace of external actions performed. -/
def test_target (env : Env) (target : List Char) : ResultData × List Event :=
  let rd := init_result target
  if ipLiteralCheck target = false then
    match test_dns_resolution env target with
    | some ip =>
      pingAndPorts env target
        { rd with dns_resolution := some ⟨true, some ip⟩ } ip [Event.dnsLookup target]
    | none =>
      ({ rd with dns_resolution := some ⟨false, none⟩ }, [Event.dnsLookup target])
  else
    pingAndPorts env target
      { rd with dns_resolution := some ⟨true, some target⟩ } target []

/-- `run_tests` (lines 662-681): process the targets in order, appending one
record per target. -/
def run_tests (env : Env) (targets : List (List Char)) : List ResultData :=
  targets.map fun t => (test_target env t).1

/-- The `Successful Pings` value of the report summary (line 438):
`sum(1 for r in self.results if r['ping_success'])`. -/
def successfulPingsCount (results : List ResultData) : Nat :=
  ((results.filter fun r => r.ping_success).map fun _ => 1).sum

/-- The `Targets Tested` value (line 434). -/
def targetsTestedCount (results : List ResultData) : Nat :=
  results.length

/-- The `DNS Resolutions` value (line 442). -/
def dnsResolutionsCount (results : List ResultData) : Nat :=
  ((results.filter fun r =>
      match r.dns_resolution with
      | some d => d.success
      | none => false).map fun _ => 1).sum

/-- The `Open Ports` value (line 446). -/
def openPortsCount (results : List ResultData) : Nat :=
  (results.map fun r => (r.port_tests.filter fun p => p.is_open).length).sum

/-- Fragment of the summary template before the `Targets Tested` value. -/
def summaryPiece1 : List Char :=
  "<div class=\"summary\">\n<div class=\"summary-card\">\n<h3>Targets Tested</h3>\n<div class=\"value\">".data

/-- Fragment between the `Targets Tested` and `Successful Pings` values. -/
def summaryPiece2 : List Char :=
  "</div>\n</div>\n<div class=\"summary-card\">\n<h3>Successful Pings</h3>\n<div class=\"value success\">".data

/-- Fragment between the `Successful Pings` and `DNS Resolutions` values. -/
def summaryPiece3 : List Char :=
  "</div>\n</div>\n<div class=\"summary-card\">\n<h3>DNS Resolutions</h3>\n<div class=\"value success\">".data

/-- Fragment between the `DNS Resolutions` and `Open Ports` values. -/
def summaryPiece4 : List Char :=
  "</div>\n</div>\n<div class=\"summary-card\">\n<h3>Open Ports</h3>\n<div class=\"value warning\">".data

/-- Closing fragment of the summary template. -/
def summaryPiece5 : List Char :=
  "</div>\n</div>\n</div>".data

/-- The aggregate-summary section of `generate_html_report` (lines 431-448),
with each interpolated value rendered in place. -/
def summarySection (results : List ResultData) : List Char :=
  summaryPiece1 ++ (toString (targetsTestedCount results)).data ++
  summaryPiece2 ++ (toString (successfulPingsCount results)).data ++
  summaryPiece3 ++ (toString (dnsResolutionsCount results)).data ++
  summaryPiece4 ++ (toString (openPortsCount results)).data ++
  summaryPiece5

/-- The synthetic Unix-style output block of the spec's parser test. -/
def unixSampleText : List Char :=
  "4 packets transmitted, 4 received, 0% packet loss\nmin/avg/max = 10.0/12.5/15.0".data

/-- Adversarial Unix summary line whose reported received count exceeds the
sent count. -/
def cx2Text : List Char := "1 packets transmitted, 2 received, 0% packet loss".data

/-- Environment whose ping subprocess exits 0 with `cx2Text` as output. -/
def cx2Env : Env :=
  { platform := Platform.unix
    gethostbyname := fun _ => none
    runProcess := fun _ => some ⟨0, cx2Text, []⟩
    connect := fun _ _ => ConnectOutcome.exn }

/-- A literal-IP target. -/
def cx2Target : List Char := "8.8.8.8".data

/-- The statistics the parser extracts from `cx2Text`. -/
def cx2Stats : PingStats := ⟨1, 2, 0, 0, 0, 0⟩

/-- A Unix summary line with given digit strings for the sent and received
counts (the standard `ping` summary shape). -/
def unixSummaryLine (ds rs : List Char) : List Char :=
  ds ++ " packets transmitted, ".data ++ rs ++ " received, 0% packet loss".data

/-- A connect attempt that returns `ECONNREFUSED` (111) after 1.5 measured
milliseconds: the port is closed and no exception was raised. -/
def cx3Outcome : ConnectOutcome := ConnectOutcome.normal 111 (mkRat 3 2)

/-- Environment in which every external operation fails. -/
def envAllFail : Env :=
  { platform := Platform.unix
    gethostbyname := fun _ => none
    runProcess := fun _ => none
    connect := fun _ _ => ConnectOutcome.exn }

/-- A hostname that the resolver cannot resolve. -/
def c1Target : List Char := "nosuchhost.example".data

/-- The Windows-style summary line of the spec's parser test. -/
def winPacketLine : List Char := "Packets: Sent = 4, Received = 2, Lost = 2 (50% loss)".data

/-- A Windows output block: a per-reply line, the summary line, an average line. -/
def c5Text : List Char :=
  ("Reply from 1.2.3.4: bytes=32 time=5ms TTL=64\n".data ++ winPacketLine ++
   "\nApproximate round trip times in milli-seconds:\nAverage = 7ms".data)

/-- The Windows sent count is assigned on this line: the `'Packets:'` branch
runs and the `Sent = (\d+)` pattern matched. -/
def winAssignsSent (l : List Char) : Bool :=
  containsSub litPackets l && (reSearchLDL litSent [] l).isSome

/-- The Windows received count is assigned: `'Packets:'` branch and the
`Received = (\d+)` pattern matched. -/
def winAssignsReceived (l : List Char) : Bool :=
  containsSub litPackets l && (reSearchLDL litReceived [] l).isSome

/-- The Windows loss percentage is assigned: `'Packets:'` branch and the
`\((\d+)% loss\)` pattern matched. -/
def winAssignsLoss (l : List Char) : Bool :=
  containsSub litPackets l && (reSearchLDL ['('] litLossSuffix l).isSome

/-- The Windows min/max update runs on this line: it reaches the `'time='`
branch and the `time[<=](\d+)ms` pattern matched. -/
def winAssignsTime (l : List Char) : Bool :=
  !containsSub litPackets l && containsSub litTimeEq l && (reSearchTime l).isSome

/-- The Windows average is assigned: the line reaches the `'Average'` branch
and the `Average = (\d+)ms` pattern matched. -/
def winAssignsAvg (l : List Char) : Bool :=
  !containsSub litPackets l && !containsSub litTimeEq l && containsSub litAverage l &&
    (reSearchLDL litAvgEq litMs l).isSome

/-- The Unix sent count is assigned on this line: the `'packets transmitted'`
branch runs and `int(parts[0].split()[0])` succeeds. -/
def unixAssignsSent (l : List Char) : Bool :=
  containsSub litPktTrans l &&
    (((pySplitWs ((splitChar ',' l).headD [])).head?).bind pyInt).isSome

/-- The Unix received count is assigned: the sent assignment succeeded and
`int(parts[1].split()[0])` succeeds (a missing comma or token raises first). -/
def unixAssignsReceived (l : List Char) : Bool :=
  unixAssignsSent l &&
    (((splitChar ',' l)[1]?).bind (fun p1 => ((pySplitWs p1).head?).bind pyInt)).isSome

/-- The Unix loss percentage is assigned: both counts parsed, a third
comma-field exists, and the `(\d+)%` pattern matched in it. -/
def unixAssignsLoss (l : List Char) : Bool :=
  unixAssignsReceived l && decide ((splitChar ',' l).length > 2) &&
    (reSearchLDL [] ['%'] ((splitChar ',' l).getD 2 [])).isSome

/-- The Unix min time is assigned: the `'min/avg/max'` branch matched the
three-group pattern and `float()` of the first group succeeds. -/
def unixAssignsMin (l : List Char) : Bool :=
  !containsSub litPktTrans l && containsSub litMinAvgMax l &&
    ((reSearchTimes l).bind (fun g => pyFloat g.1)).isSome

/-- The Unix average is assigned: the min assignment succeeded and `float()`
of the second group succeeds. -/
def unixAssignsAvg (l : List Char) : Bool :=
  !containsSub litPktTrans l && containsSub litMinAvgMax l &&
    ((reSearchTimes l).bind (fun g => (pyFloat g.1).bind (fun _ => pyFloat g.2.1))).isSome

/-- The Unix max time is assigned: min and average succeeded and `float()` of
the third group succeeds. -/
def unixAssignsMax (l : List Char) : Bool :=
  !containsSub litPktTrans l && containsSub litMinAvgMax l &&
    ((reSearchTimes l).bind (fun g => (pyFloat g.1).bind (fun _ =>
      (pyFloat g.2.1).bind (fun _ => pyFloat g.2.2)))).isSome

/-- Malformed Windows output: the `'Packets:'` trigger is present but every
field's pattern fails (`Sent = x` has no digits). -/
def c6WinText : List Char := "Packets: Sent = x".data

/-- Malformed Unix output: the summary line has no comma, so the sent count is
assigned but `parts[1]` raises `IndexError` before `packets_received` is. -/
def c6UnixText : List Char := "4 packets transmitted".data

/-- A dotted-decimal IP literal target. -/
def c7Target : List Char := "8.8.8.8".data

/-- A target that is not a well-formed IPv4 address yet passes the IP-literal
heuristic of line 138 (stripping `.` and `:` leaves the digits `123`). -/
def c10Target : List Char := "1:2:3".data

/-- A hostname target for the DNS-success path. -/
def c8Target : List Char := "www.example.com".data

/-- Environment that resolves `c8Target`, pings successfully, and finds every
port open after 1 ms. -/
def c8Env : Env :=
  { platform := Platform.unix
    gethostbyname := fun h => if h = c8Target then some "93.184.216.34".data else none
    runProcess := fun _ => some ⟨0, unixSampleText, []⟩
    connect := fun _ _ => ConnectOutcome.normal 0 1 }

/-- The claim C7 notion of a literal IP: the string parses entirely as
dotted-decimal digits (only digits and dots, with at least one digit). -/
def dottedDecimal (s : List Char) : Prop :=
  s ≠ [] ∧ (∀ c ∈ s, c.isDigit ∨ c = '.') ∧ ∃ c ∈ s, c.isDigit = true

instance (s : List Char) : Decidable (dottedDecimal s) := by
  unfold dottedDecimal
  infer_instance

set_option maxRecDepth 16384

/-- Summing the constant 1 over a list counts its elements. -/
theorem sumMapOnes {α : Type} : ∀ l : List α, (l.map fun _ => (1 : Nat)).sum = l.length
  | [] => by simp
  | a :: t => by simp [sumMapOnes t, Nat.add_comm]

/-- A list is a Boolean prefix of itself followed by anything. -/
theorem prefixOfAppendSelf : ∀ p s : List Char, p.isPrefixOf (p ++ s) = true
  | [], s => by simp [List.isPrefixOf]
  | c :: cs, s => by simp [List.isPrefixOf, prefixOfAppendSelf cs s]

/-- A pattern occurs in itself followed by anything. -/
theorem containsSubSelf (pat b : List Char) : containsSub pat (pat ++ b) = true := by
  cases pat with
  | nil =>
    cases b with
    | nil => simp [containsSub, List.isPrefixOf]
    | cons c cs => simp [containsSub, List.isPrefixOf]
  | cons c cs => simp [containsSub, prefixOfAppendSelf]

/-- A pattern occurs in any string of which it is a middle segment. -/
theorem containsSubOfEq (pat a b s : List Char) (h : s = a ++ (pat ++ b)) :
    containsSub pat s = true := by
  subst h
  induction a with
  | nil => simpa using containsSubSelf pat b
  | cons c cs ih => simp [containsSub, ih]

/-- Claim C1: if DNS resolution fails for a target, the appended record keeps
`ping_success = False`, `ping_stats` at its initial `{}`, and `port_tests = []`,
and the trace shows the DNS lookup was the only external action: no ping is
invoked and no port is probed. -/
theorem dnsFailureShortCircuits (env : Env) (t : List Char)
    (hip : ipLiteralCheck t = false) (hdns : env.gethostbyname t = none) :
    test_target env t =
      ({ target := t, dns_resolution := some ⟨false, none⟩, ping_success := false,
         ping_stats := none, port_tests := [] },
       [Event.dnsLookup t]) := by
  simp [test_target, init_result, test_dns_resolution, hip, hdns]

/-- Witness for C1 at a concrete unresolvable hostname. -/
theorem dnsFailureShortCircuitsWitness :
    ipLiteralCheck c1Target = false ∧ envAllFail.gethostbyname c1Target = none ∧
    test_target envAllFail c1Target =
      ({ target := c1Target, dns_resolution := some ⟨false, none⟩, ping_success := false,
         ping_stats := none, port_tests := [] },
       [Event.dnsLookup c1Target]) :=
  ⟨by decide, rfl, dnsFailureShortCircuits envAllFail c1Target (by decide) rfl⟩

/-- Claim C2, counterexample: a target whose ping output reports more packets
received than sent produces a result record whose parsed statistics violate
`packets_received ≤ packets_sent`; the parser copies both counts verbatim. -/
theorem receivedGtSentCounterexample :
    (test_target cx2Env cx2Target).1.ping_stats = some cx2Stats ∧
    ¬ (cx2Stats.packets_received ≤ cx2Stats.packets_sent) := by
  decide

/-- Claim C3, counterexample: a closed port whose `connect_ex` returns the
error code 111 normally (no exception) after a measured 1.5 ms yields
`open = false` with a nonzero latency, contradicting the claimed
`(false, 0)` for every unsuccessful connect. -/
theorem closedPortNonzeroLatency :
    (test_port_connectivity cx3Outcome).1 = false ∧
    (test_port_connectivity cx3Outcome).2 ≠ 0 := by
  decide

/-- Claim C3, amended: the port prober returns `(false, 0)` exactly on the
exception path (timeouts included); a normal `connect_ex` return with a
nonzero error code gives `open = false` with the measured elapsed time; a
successful connect gives `open = true` with the measured elapsed time, which
is non-negative whenever the clock readings are monotone. -/
theorem portProbeBehavior (code : Int) (t : ℚ) :
    test_port_connectivity ConnectOutcome.exn = (false, 0) ∧
    (code ≠ 0 → test_port_connectivity (ConnectOutcome.normal code t) = (false, t)) ∧
    (0 ≤ t → test_port_connectivity (ConnectOutcome.normal 0 t) = (true, t) ∧
      0 ≤ (test_port_connectivity (ConnectOutcome.normal 0 t)).2) := by
  refine ⟨rfl, ?_, ?_⟩
  · intro h
    simp [test_port_connectivity, beq_iff_eq, h]
  · intro h
    refine ⟨by simp [test_port_connectivity], ?_⟩
    simpa [test_port_connectivity] using h

/-- Witness for the amended C3 at concrete outcomes. -/
theorem portProbeBehaviorWitness :
    test_port_connectivity ConnectOutcome.exn = (false, 0) ∧
    test_port_connectivity (ConnectOutcome.normal 2 5) = (false, 5) ∧
    test_port_connectivity (ConnectOutcome.normal 0 5) = (true, 5) :=
  ⟨(portProbeBehavior 2 5).1,
   (portProbeBehavior 2 5).2.1 (by decide),
   ((portProbeBehavior 2 5).2.2 (by decide)).1⟩

/-- Claim C4: on the Unix platform, the spec's synthetic output block parses
to `sent = 4, received = 4, loss = 0, min = 10.0, avg = 12.5, max = 15.0`. -/
theorem unixSampleParse :
    extract_ping_stats Platform.unix unixSampleText =
      { packets_sent := 4, packets_received := 4, packet_loss := 0,
        min_time := 10, max_time := 15, avg_time := mkRat 25 2 } := by
  decide

/-- Claim C9: the `Successful Pings` value interpolated into the rendered
aggregate summary is exactly the number of records whose `ping_success` is
true, and its decimal rendering occurs in the summary section. -/
theorem successCountMatchesRecords (results : List ResultData) :
    successfulPingsCount results = results.countP (fun r => r.ping_success) ∧
    containsSub ((toString (successfulPingsCount results)).data) (summarySection results) = true := by
  constructor
  · simp [successfulPingsCount, sumMapOnes, List.countP_eq_length_filter]
  · exact containsSubOfEq _
      (summaryPiece1 ++ (toString (targetsTestedCount results)).data ++ summaryPiece2)
      (summaryPiece3 ++ (toString (dnsResolutionsCount results)).data ++
        summaryPiece4 ++ (toString (openPortsCount results)).data ++ summaryPiece5)
      _ (by simp [summarySection])

/-- The ping and port phases never touch the `dns_resolution` field. -/
theorem pingAndPortsDns (env : Env) (t : List Char) (rd : ResultData) (ip : List Char)
    (evs : List Event) :
    (pingAndPorts env t rd ip evs).1.dns_resolution = rd.dns_resolution := by
  simp only [pingAndPorts]
  cases hp : ping_target env t with
  | none => simp
  | some r =>
    by_cases hc : (r.returncode == 0) = true
    · simp [hc]
    · simp [hc]

/-- The port phase fills `port_tests` by probing `test_ip` once per fixed port,
in list order. -/
theorem pingAndPortsPorts (env : Env) (t : List Char) (rd : ResultData) (ip : List Char)
    (evs : List Event) :
    (pingAndPorts env t rd ip evs).1.port_tests = ports_to_test.map (fun p =>
      { port := p, is_open := (test_port_connectivity (env.connect ip p)).1,
        response_time := (test_port_connectivity (env.connect ip p)).2 }) := by
  simp [pingAndPorts]

/-- The trace of the ping and port phases: one ping invocation, then one probe
of `test_ip` per fixed port. -/
theorem pingAndPortsEvents (env : Env) (t : List Char) (rd : ResultData) (ip : List Char)
    (evs : List Event) :
    (pingAndPorts env t rd ip evs).2 =
      evs ++ [Event.pingCall t] ++ ports_to_test.map (fun p => Event.portProbe ip p) := by
  simp [pingAndPorts]

/-- When the IP-literal heuristic fires, `test_target` takes the literal
branch: the target itself is recorded as the resolved address. -/
theorem ipLiteralBranchEq (env : Env) (t : List Char) (h : ipLiteralCheck t = true) :
    test_target env t =
      pingAndPorts env t { init_result t with dns_resolution := some ⟨true, some t⟩ } t [] := by
  simp [test_target, h]

/-- When the heuristic does not fire and resolution succeeds, `test_target`
proceeds with the first resolved address. -/
theorem hostnameBranchEq (env : Env) (t ip : List Char) (h : ipLiteralCheck t = false)
    (hdns : env.gethostbyname t = some ip) :
    test_target env t =
      pingAndPorts env t { init_result t with dns_resolution := some ⟨true, some ip⟩ } ip
        [Event.dnsLookup t] := by
  simp [test_target, test_dns_resolution, h, hdns]

/-- Shared conclusion of the IP-literal branch: DNS recorded as successful
with the unmodified target, and no resolver call in the trace. -/
theorem ipCheckDnsRecord (env : Env) (t : List Char) (h : ipLiteralCheck t = true) :
    (test_target env t).1.dns_resolution = some ⟨true, some t⟩ ∧
    ∀ hn, Event.dnsLookup hn ∉ (test_target env t).2 := by
  rw [ipLiteralBranchEq env t h]
  constructor
  · rw [pingAndPortsDns]
  · intro hn
    rw [pingAndPortsEvents]
    simp [ports_to_test]

/-- Digits are neither dots nor colons. -/
theorem digitNeDotColon (c : Char) (hc : c.isDigit = true) : c ≠ '.' ∧ c ≠ ':' := by
  constructor <;> rintro rfl <;> exact absurd hc (by decide)

/-- A dotted-decimal string passes the strip-and-isdigit heuristic. -/
theorem dottedDecimalCheck (t : List Char) (h : dottedDecimal t) : ipLiteralCheck t = true := by
  obtain ⟨hne, hall, c0, hc0, hd⟩ := h
  have hmem : c0 ∈ (t.filter fun c => c ≠ '.').filter fun c => c ≠ ':' := by
    have := digitNeDotColon c0 hd
    simp [List.mem_filter, hc0, this.1, this.2]
  unfold ipLiteralCheck pyIsdigit
  rw [Bool.and_eq_true]
  constructor
  · have : (t.filter fun c => c ≠ '.').filter (fun c => c ≠ ':') ≠ [] :=
      List.ne_nil_of_mem hmem
    simpa using this
  · rw [List.all_eq_true]
    intro x hx
    simp only [List.mem_filter] at hx
    rcases hall x hx.1.1 with hdig | hdot
    · exact hdig
    · exact absurd (by simpa using hx.1.2) (by simp [hdot])

/-- Claim C7: a target that parses entirely as dotted-decimal digits is taken
as an IP literal: the DNS stage records success with the target unchanged and
the resolver is never invoked. -/
theorem dottedDecimalNoResolution (env : Env) (t : List Char) (h : dottedDecimal t) :
    ipLiteralCheck t = true ∧
    (test_target env t).1.dns_resolution = some ⟨true, some t⟩ ∧
    ∀ hn, Event.dnsLookup hn ∉ (test_target env t).2 := by
  have hb := dottedDecimalCheck t h
  exact ⟨hb, (ipCheckDnsRecord env t hb).1, (ipCheckDnsRecord env t hb).2⟩

/-- Witness for C7 at the literal `8.8.8.8`. -/
theorem dottedDecimalNoResolutionWitness :
    ipLiteralCheck c7Target = true ∧
    (test_target envAllFail c7Target).1.dns_resolution = some ⟨true, some c7Target⟩ ∧
    Event.dnsLookup c7Target ∉ (test_target envAllFail c7Target).2 :=
  ⟨(dottedDecimalNoResolution envAllFail c7Target (by decide)).1,
   (dottedDecimalNoResolution envAllFail c7Target (by decide)).2.1,
   (dottedDecimalNoResolution envAllFail c7Target (by decide)).2.2 c7Target⟩

/-- Claim C10: any target whose characters, after removing every dot and
colon, form a non-empty digit string is classified as an IP literal (even when
it is not a well-formed IPv4 address): DNS success is recorded with the
unmodified string and the resolver is never invoked. -/
theorem stripDigitsNoResolution (env : Env) (t : List Char)
    (h : (t.filter fun c => c ≠ '.').filter (fun c => c ≠ ':') ≠ [] ∧
         ∀ c ∈ (t.filter fun c => c ≠ '.').filter (fun c => c ≠ ':'), c.isDigit = true) :
    ipLiteralCheck t = true ∧
    (test_target env t).1.dns_resolution = some ⟨true, some t⟩ ∧
    ∀ hn, Event.dnsLookup hn ∉ (test_target env t).2 := by
  have hb : ipLiteralCheck t = true := by
    unfold ipLiteralCheck pyIsdigit
    rw [Bool.and_eq_true]
    refine ⟨by simpa using h.1, ?_⟩
    rw [List.all_eq_true]
    exact h.2
  exact ⟨hb, (ipCheckDnsRecord env t hb).1, (ipCheckDnsRecord env t hb).2⟩

/-- Witness for C10 at `1:2:3`, which is not an IP address at all. -/
theorem stripDigitsNoResolutionWitness :
    ipLiteralCheck c10Target = true ∧
    (test_target envAllFail c10Target).1.dns_resolution = some ⟨true, some c10Target⟩ ∧
    Event.dnsLookup c10Target ∉ (test_target envAllFail c10Target).2 :=
  ⟨(stripDigitsNoResolution envAllFail c10Target (by decide)).1,
   (stripDigitsNoResolution envAllFail c10Target (by decide)).2.1,
   (stripDigitsNoResolution envAllFail c10Target (by decide)).2.2 c10Target⟩

/-- Port probes appearing in a ping-and-ports trace always target `ip` and a
port of the fixed list. -/
theorem probeMemAux (t ip : List Char) (evs : List Event)
    (hevs : ∀ h p, Event.portProbe h p ∉ evs) (hst : List Char) (p : Nat)
    (hmem : Event.portProbe hst p ∈
      evs ++ [Event.pingCall t] ++ ports_to_test.map (fun q => Event.portProbe ip q)) :
    hst = ip ∧ p ∈ ports_to_test := by
  simp only [List.append_assoc, List.mem_append] at hmem
  rcases hmem with h1 | h1
  · exact absurd h1 (hevs hst p)
  · simp only [List.mem_append, List.mem_singleton, List.mem_map] at h1
    rcases h1 with h2 | ⟨q, hq, h2⟩
    · cases h2
    · cases h2
      exact ⟨rfl, hq⟩

/-- Claim C8: whenever the DNS stage succeeds (IP literal or successful
resolution), the appended record's `port_tests` has one entry per fixed port
in the order 80, 443, 53, each obtained by probing the address stored in the
record's `dns_resolution` field; every port probe in the trace is against that
stored address, and each fixed port is probed. -/
theorem dnsSuccessPortTests (env : Env) (t : List Char)
    (h : ipLiteralCheck t = true ∨
         (ipLiteralCheck t = false ∧ ∃ ip, env.gethostbyname t = some ip)) :
    ∃ ip, (test_target env t).1.dns_resolution = some ⟨true, some ip⟩ ∧
      (test_target env t).1.port_tests = ports_to_test.map (fun p =>
        { port := p, is_open := (test_port_connectivity (env.connect ip p)).1,
          response_time := (test_port_connectivity (env.connect ip p)).2 }) ∧
      ((test_target env t).1.port_tests).map (fun pt => pt.port) = [80, 443, 53] ∧
      (∀ p ∈ ports_to_test, Event.portProbe ip p ∈ (test_target env t).2) ∧
      (∀ hst p, Event.portProbe hst p ∈ (test_target env t).2 →
        hst = ip ∧ p ∈ ports_to_test) := by
  rcases h with hip | ⟨hip, ip, hdns⟩
  · refine ⟨t, ?_, ?_, ?_, ?_, ?_⟩
    · rw [ipLiteralBranchEq env t hip, pingAndPortsDns]
    · rw [ipLiteralBranchEq env t hip, pingAndPortsPorts]
    · rw [ipLiteralBranchEq env t hip, pingAndPortsPorts]
      simp [ports_to_test]
    · intro p hp
      rw [ipLiteralBranchEq env t hip, pingAndPortsEvents]
      simp only [List.append_assoc, List.mem_append, List.mem_map]
      right; right
      exact ⟨p, hp, rfl⟩
    · intro hst p hmem
      rw [ipLiteralBranchEq env t hip, pingAndPortsEvents] at hmem
      exact probeMemAux t t [] (by simp) hst p hmem
  · refine ⟨ip, ?_, ?_, ?_, ?_, ?_⟩
    · rw [hostnameBranchEq env t ip hip hdns, pingAndPortsDns]
    · rw [hostnameBranchEq env t ip hip hdns, pingAndPortsPorts]
    · rw [hostnameBranchEq env t ip hip hdns, pingAndPortsPorts]
      simp [ports_to_test]
    · intro p hp
      rw [hostnameBranchEq env t ip hip hdns, pingAndPortsEvents]
      simp only [List.append_assoc, List.mem_append, List.mem_map]
      right; right
      exact ⟨p, hp, rfl⟩
    · intro hst p hmem
      rw [hostnameBranchEq env t ip hip hdns, pingAndPortsEvents] at hmem
      exact probeMemAux t ip [Event.dnsLookup t] (by simp) hst p hmem

/-- Witness for C8: a resolvable hostname in a concrete environment. -/
theorem dnsSuccessPortTestsWitness :
    (ipLiteralCheck c8Target = false ∧ c8Env.gethostbyname c8Target = some "93.184.216.34".data) ∧
    ∃ ip, (test_target c8Env c8Target).1.dns_resolution = some ⟨true, some ip⟩ ∧
      (test_target c8Env c8Target).1.port_tests = ports_to_test.map (fun p =>
        { port := p, is_open := (test_port_connectivity (c8Env.connect ip p)).1,
          response_time := (test_port_connectivity (c8Env.connect ip p)).2 }) ∧
      ((test_target c8Env c8Target).1.port_tests).map (fun pt => pt.port) = [80, 443, 53] ∧
      (∀ p ∈ ports_to_test, Event.portProbe ip p ∈ (test_target c8Env c8Target).2) ∧
      (∀ hst p, Event.portProbe hst p ∈ (test_target c8Env c8Target).2 →
        hst = ip ∧ p ∈ ports_to_test) :=
  ⟨⟨by decide, by decide⟩,
   dnsSuccessPortTests c8Env c8Target
     (Or.inr ⟨by decide, "93.184.216.34".data, by decide⟩)⟩

/-- A line without `'Packets:'` leaves the packet counters untouched. -/
theorem windowsLineCounts (l : List Char) (st : PingStats) (h : containsSub litPackets l = false) :
    (windowsLine l st).packets_sent = st.packets_sent ∧
    (windowsLine l st).packets_received = st.packets_received ∧
    (windowsLine l st).packet_loss = st.packet_loss := by
  unfold windowsLine
  dsimp only
  repeat' split
  all_goals simp_all [apply_ite]

/-- The Windows summary line sets the packet counters to 4, 2 and 50 from any
starting state. -/
theorem windowsLinePacketSets (st : PingStats) :
    (windowsLine winPacketLine st).packets_sent = 4 ∧
    (windowsLine winPacketLine st).packets_received = 2 ∧
    (windowsLine winPacketLine st).packet_loss = 50 :=
  ⟨rfl, rfl, rfl⟩

/-- Folding the Windows grammar over `'Packets:'`-free lines preserves the
packet counters. -/
theorem windowsLoopCounts : ∀ (L : List (List Char)) (st : PingStats),
    (∀ l ∈ L, containsSub litPackets l = false) →
    (L.foldl (fun s li => windowsLine li s) st).packets_sent = st.packets_sent ∧
    (L.foldl (fun s li => windowsLine li s) st).packets_received = st.packets_received ∧
    (L.foldl (fun s li => windowsLine li s) st).packet_loss = st.packet_loss
  | [], _, _ => ⟨rfl, rfl, rfl⟩
  | l :: L, st, h => by
    simp only [List.foldl_cons]
    have hl := windowsLineCounts l st (h l (List.mem_cons_self l L))
    have ih := windowsLoopCounts L (windowsLine l st) (fun x hx => h x (List.mem_cons_of_mem l hx))
    exact ⟨ih.1.trans hl.1, ih.2.1.trans hl.2.1, ih.2.2.trans hl.2.2⟩

/-- If every line is the Windows summary line or `'Packets:'`-free, and the
summary line occurs, the fold ends with counters 4, 2 and 50. -/
theorem windowsLoopSets : ∀ (L : List (List Char)) (st : PingStats),
    (∀ l ∈ L, l = winPacketLine ∨ containsSub litPackets l = false) →
    winPacketLine ∈ L →
    (L.foldl (fun s li => windowsLine li s) st).packets_sent = 4 ∧
    (L.foldl (fun s li => windowsLine li s) st).packets_received = 2 ∧
    (L.foldl (fun s li => windowsLine li s) st).packet_loss = 50
  | [], _, _, hmem => absurd hmem (List.not_mem_nil _)
  | l :: L, st, h, hmem => by
    simp only [List.foldl_cons]
    by_cases hin : winPacketLine ∈ L
    · exact windowsLoopSets L (windowsLine l st) (fun x hx => h x (List.mem_cons_of_mem l hx)) hin
    · have hl : l = winPacketLine := by
        rcases List.mem_cons.mp hmem with h1 | h1
        · exact h1.symm
        · exact absurd h1 hin
      subst hl
      have hfree : ∀ x ∈ L, containsSub litPackets x = false := by
        intro x hx
        rcases h x (List.mem_cons_of_mem _ hx) with h2 | h2
        · exact absurd (h2 ▸ hx) hin
        · exact h2
      have hset := windowsLinePacketSets st
      have hloop := windowsLoopCounts L (windowsLine winPacketLine st) hfree
      exact ⟨hloop.1.trans hset.1, hloop.2.1.trans hset.2.1, hloop.2.2.trans hset.2.2⟩

/-- Claim C5: on the Windows platform, any output whose lines include the
summary line `Packets: Sent = 4, Received = 2, Lost = 2 (50% loss)` and whose
other lines (per-reply `time=` lines, `Average` lines, anything else) do not
contain `'Packets:'` parses to `sent = 4, received = 2, loss = 50`. -/
theorem winSummaryParse (text : List Char)
    (hmem : winPacketLine ∈ splitChar '\n' text)
    (hothers : ∀ l ∈ splitChar '\n' text, l ≠ winPacketLine → containsSub litPackets l = false) :
    (extract_ping_stats Platform.windows text).packets_sent = 4 ∧
    (extract_ping_stats Platform.windows text).packets_received = 2 ∧
    (extract_ping_stats Platform.windows text).packet_loss = 50 := by
  have h : ∀ l ∈ splitChar '\n' text, l = winPacketLine ∨ containsSub litPackets l = false := by
    intro l hl
    by_cases he : l = winPacketLine
    · exact Or.inl he
    · exact Or.inr (hothers l hl he)
  simpa [extract_ping_stats] using windowsLoopSets (splitChar '\n' text) stats0 h hmem

/-- Witness for C5: the summary line among a per-reply line and an average
line. -/
theorem winSummaryParseWitness :
    winPacketLine ∈ splitChar '\n' c5Text ∧
    (extract_ping_stats Platform.windows c5Text).packets_sent = 4 ∧
    (extract_ping_stats Platform.windows c5Text).packets_received = 2 ∧
    (extract_ping_stats Platform.windows c5Text).packet_loss = 50 :=
  ⟨by decide, winSummaryParse c5Text (by decide) (by decide)⟩

/-- A line on which the Windows sent pattern did not match leaves
`packets_sent` untouched. -/
theorem winLineSentPres (l : List Char) (st : PingStats) (h : winAssignsSent l = false) :
    (windowsLine l st).packets_sent = st.packets_sent := by
  unfold windowsLine
  dsimp only
  repeat' split
  all_goals simp_all [winAssignsSent]

/-- A line on which the Windows received pattern did not match leaves
`packets_received` untouched. -/
theorem winLineReceivedPres (l : List Char) (st : PingStats) (h : winAssignsReceived l = false) :
    (windowsLine l st).packets_received = st.packets_received := by
  unfold windowsLine
  dsimp only
  repeat' split
  all_goals simp_all [winAssignsReceived]

/-- A line on which the Windows loss pattern did not match leaves
`packet_loss` untouched. -/
theorem winLineLossPres (l : List Char) (st : PingStats) (h : winAssignsLoss l = false) :
    (windowsLine l st).packet_loss = st.packet_loss := by
  unfold windowsLine
  dsimp only
  repeat' split
  all_goals simp_all [winAssignsLoss]

/-- A line on which the Windows per-reply pattern did not match leaves
`min_time` and `max_time` untouched. -/
theorem winLineTimePres (l : List Char) (st : PingStats) (h : winAssignsTime l = false) :
    (windowsLine l st).min_time = st.min_time ∧
    (windowsLine l st).max_time = st.max_time := by
  unfold windowsLine
  dsimp only
  repeat' split
  all_goals simp_all [winAssignsTime, apply_ite]

/-- A line on which the Windows average pattern did not match leaves
`avg_time` untouched. -/
theorem winLineAvgPres (l : List Char) (st : PingStats) (h : winAssignsAvg l = false) :
    (windowsLine l st).avg_time = st.avg_time := by
  unfold windowsLine
  dsimp only
  repeat' split
  all_goals simp_all [winAssignsAvg, apply_ite]

/-- A line on which the Unix sent extraction did not succeed leaves
`packets_sent` untouched, raising or not. -/
theorem unixLineSentPres (l : List Char) (st : PingStats) (h : unixAssignsSent l = false) :
    (unixLine l st).1.packets_sent = st.packets_sent := by
  unfold unixLine
  dsimp only
  repeat' split
  all_goals simp_all [unixAssignsSent, apply_ite]

/-- A line on which the Unix received extraction did not succeed leaves
`packets_received` untouched, raising or not. -/
theorem unixLineReceivedPres (l : List Char) (st : PingStats)
    (h : unixAssignsReceived l = false) :
    (unixLine l st).1.packets_received = st.packets_received := by
  unfold unixLine
  dsimp only
  repeat' split
  all_goals simp_all [unixAssignsReceived, unixAssignsSent, apply_ite]

/-- A line on which the Unix loss extraction did not succeed leaves
`packet_loss` untouched, raising or not. -/
theorem unixLineLossPres (l : List Char) (st : PingStats) (h : unixAssignsLoss l = false) :
    (unixLine l st).1.packet_loss = st.packet_loss := by
  unfold unixLine
  dsimp only
  repeat' split
  all_goals simp_all [unixAssignsLoss, unixAssignsReceived, unixAssignsSent, apply_ite]

/-- A line on which the Unix min extraction did not succeed leaves `min_time`
untouched, raising or not. -/
theorem unixLineMinPres (l : List Char) (st : PingStats) (h : unixAssignsMin l = false) :
    (unixLine l st).1.min_time = st.min_time := by
  unfold unixLine
  dsimp only
  repeat' split
  all_goals simp_all [unixAssignsMin, apply_ite]

/-- A line on which the Unix average extraction did not succeed leaves
`avg_time` untouched, raising or not. -/
theorem unixLineAvgPres (l : List Char) (st : PingStats) (h : unixAssignsAvg l = false) :
    (unixLine l st).1.avg_time = st.avg_time := by
  unfold unixLine
  dsimp only
  repeat' split
  all_goals simp_all [unixAssignsAvg, apply_ite]

/-- A line on which the Unix max extraction did not succeed leaves `max_time`
untouched, raising or not. -/
theorem unixLineMaxPres (l : List Char) (st : PingStats) (h : unixAssignsMax l = false) :
    (unixLine l st).1.max_time = st.max_time := by
  unfold unixLine
  dsimp only
  repeat' split
  all_goals simp_all [unixAssignsMax, apply_ite]

/-- A projection preserved by every line of the fold is preserved by the
whole Windows loop. -/
theorem windowsLoopPres {α : Type} (f : PingStats → α) (P : List Char → Bool)
    (hline : ∀ l st, P l = false → f (windowsLine l st) = f st) :
    ∀ (L : List (List Char)) (st : PingStats), (∀ l ∈ L, P l = false) →
      f (L.foldl (fun s li => windowsLine li s) st) = f st
  | [], _, _ => rfl
  | l :: L, st, h => by
    simp only [List.foldl_cons]
    rw [windowsLoopPres f P hline L (windowsLine l st)
          (fun x hx => h x (List.mem_cons_of_mem l hx)),
        hline l st (h l (List.mem_cons_self l L))]

/-- A projection preserved by every line is preserved by the whole Unix loop,
whether or not an iteration raises. -/
theorem unixLoopPres {α : Type} (f : PingStats → α) (P : List Char → Bool)
    (hline : ∀ l st, P l = false → f (unixLine l st).1 = f st) :
    ∀ (L : List (List Char)) (st : PingStats), (∀ l ∈ L, P l = false) →
      f (unixLoop L st) = f st
  | [], _, _ => rfl
  | l :: L, st, h => by
    have hl := hline l st (h l (List.mem_cons_self l L))
    simp only [unixLoop]
    cases hu : unixLine l st with
    | mk st2 ok =>
      rw [hu] at hl
      cases ok
      · simpa using hl
      · rw [unixLoopPres f P hline L st2 (fun x hx => h x (List.mem_cons_of_mem l hx))]
        simpa using hl

/-- Claim C6: the parser is a total function on every input (each Python
exception in `extract_ping_stats` is caught, which the embedding reflects by
returning the partially filled statistics), and every field whose pattern did
not match on any line — including malformed lines where the branch trigger is
present but the field's extraction fails — keeps its zero default, on either
platform. -/
theorem parserDefaults (p : Platform) (text : List Char) :
    (p = Platform.windows →
      ((∀ l ∈ splitChar '\n' text, winAssignsSent l = false) →
        (extract_ping_stats p text).packets_sent = 0) ∧
      ((∀ l ∈ splitChar '\n' text, winAssignsReceived l = false) →
        (extract_ping_stats p text).packets_received = 0) ∧
      ((∀ l ∈ splitChar '\n' text, winAssignsLoss l = false) →
        (extract_ping_stats p text).packet_loss = 0) ∧
      ((∀ l ∈ splitChar '\n' text, winAssignsTime l = false) →
        (extract_ping_stats p text).min_time = 0 ∧
        (extract_ping_stats p text).max_time = 0) ∧
      ((∀ l ∈ splitChar '\n' text, winAssignsAvg l = false) →
        (extract_ping_stats p text).avg_time = 0)) ∧
    (p = Platform.unix →
      ((∀ l ∈ splitChar '\n' text, unixAssignsSent l = false) →
        (extract_ping_stats p text).packets_sent = 0) ∧
      ((∀ l ∈ splitChar '\n' text, unixAssignsReceived l = false) →
        (extract_ping_stats p text).packets_received = 0) ∧
      ((∀ l ∈ splitChar '\n' text, unixAssignsLoss l = false) →
        (extract_ping_stats p text).packet_loss = 0) ∧
      ((∀ l ∈ splitChar '\n' text, unixAssignsMin l = false) →
        (extract_ping_stats p text).min_time = 0) ∧
      ((∀ l ∈ splitChar '\n' text, unixAssignsAvg l = false) →
        (extract_ping_stats p text).avg_time = 0) ∧
      ((∀ l ∈ splitChar '\n' text, unixAssignsMax l = false) →
        (extract_ping_stats p text).max_time = 0)) := by
  constructor
  · rintro rfl
    refine ⟨fun hf => ?_, fun hf => ?_, fun hf => ?_, fun hf => ?_, fun hf => ?_⟩
    · simpa [extract_ping_stats, stats0] using
        windowsLoopPres (fun s => s.packets_sent) winAssignsSent winLineSentPres
          (splitChar '\n' text) stats0 hf
    · simpa [extract_ping_stats, stats0] using
        windowsLoopPres (fun s => s.packets_received) winAssignsReceived winLineReceivedPres
          (splitChar '\n' text) stats0 hf
    · simpa [extract_ping_stats, stats0] using
        windowsLoopPres (fun s => s.packet_loss) winAssignsLoss winLineLossPres
          (splitChar '\n' text) stats0 hf
    · constructor
      · simpa [extract_ping_stats, stats0] using
          windowsLoopPres (fun s => s.min_time) winAssignsTime
            (fun l st h => (winLineTimePres l st h).1) (splitChar '\n' text) stats0 hf
      · simpa [extract_ping_stats, stats0] using
          windowsLoopPres (fun s => s.max_time) winAssignsTime
            (fun l st h => (winLineTimePres l st h).2) (splitChar '\n' text) stats0 hf
    · simpa [extract_ping_stats, stats0] using
        windowsLoopPres (fun s => s.avg_time) winAssignsAvg winLineAvgPres
          (splitChar '\n' text) stats0 hf
  · rintro rfl
    refine ⟨fun hf => ?_, fun hf => ?_, fun hf => ?_, fun hf => ?_, fun hf => ?_, fun hf => ?_⟩
    · simpa [extract_ping_stats, stats0] using
        unixLoopPres (fun s => s.packets_sent) unixAssignsSent unixLineSentPres
          (splitChar '\n' text) stats0 hf
    · simpa [extract_ping_stats, stats0] using
        unixLoopPres (fun s => s.packets_received) unixAssignsReceived unixLineReceivedPres
          (splitChar '\n' text) stats0 hf
    · simpa [extract_ping_stats, stats0] using
        unixLoopPres (fun s => s.packet_loss) unixAssignsLoss unixLineLossPres
          (splitChar '\n' text) stats0 hf
    · simpa [extract_ping_stats, stats0] using
        unixLoopPres (fun s => s.min_time) unixAssignsMin unixLineMinPres
          (splitChar '\n' text) stats0 hf
    · simpa [extract_ping_stats, stats0] using
        unixLoopPres (fun s => s.avg_time) unixAssignsAvg unixLineAvgPres
          (splitChar '\n' text) stats0 hf
    · simpa [extract_ping_stats, stats0] using
        unixLoopPres (fun s => s.max_time) unixAssignsMax unixLineMaxPres
          (splitChar '\n' text) stats0 hf

/-- Witness for C6 on malformed inputs where the branch triggers are present
but the field extractions fail: `Packets: Sent = x` leaves every Windows field
at zero, and the comma-less `4 packets transmitted` (which assigns the sent
count, then raises `IndexError`) leaves every other Unix field at zero. -/
theorem parserDefaultsWitness :
    (extract_ping_stats Platform.windows c6WinText).packets_sent = 0 ∧
    (extract_ping_stats Platform.windows c6WinText).packets_received = 0 ∧
    (extract_ping_stats Platform.windows c6WinText).packet_loss = 0 ∧
    (extract_ping_stats Platform.windows c6WinText).min_time = 0 ∧
    (extract_ping_stats Platform.windows c6WinText).max_time = 0 ∧
    (extract_ping_stats Platform.windows c6WinText).avg_time = 0 ∧
    (extract_ping_stats Platform.unix c6UnixText).packets_received = 0 ∧
    (extract_ping_stats Platform.unix c6UnixText).packet_loss = 0 ∧
    (extract_ping_stats Platform.unix c6UnixText).min_time = 0 ∧
    (extract_ping_stats Platform.unix c6UnixText).avg_time = 0 ∧
    (extract_ping_stats Platform.unix c6UnixText).max_time = 0 :=
  ⟨((parserDefaults Platform.windows c6WinText).1 rfl).1 (by decide),
   ((parserDefaults Platform.windows c6WinText).1 rfl).2.1 (by decide),
   ((parserDefaults Platform.windows c6WinText).1 rfl).2.2.1 (by decide),
   (((parserDefaults Platform.windows c6WinText).1 rfl).2.2.2.1 (by decide)).1,
   (((parserDefaults Platform.windows c6WinText).1 rfl).2.2.2.1 (by decide)).2,
   ((parserDefaults Platform.windows c6WinText).1 rfl).2.2.2.2 (by decide),
   ((parserDefaults Platform.unix c6UnixText).2 rfl).2.1 (by decide),
   ((parserDefaults Platform.unix c6UnixText).2 rfl).2.2.1 (by decide),
   ((parserDefaults Platform.unix c6UnixText).2 rfl).2.2.2.1 (by decide),
   ((parserDefaults Platform.unix c6UnixText).2 rfl).2.2.2.2.1 (by decide),
   ((parserDefaults Platform.unix c6UnixText).2 rfl).2.2.2.2.2 (by decide)⟩


/-- Splitting a string without the separator yields the single piece. -/
theorem splitCharNone (c : Char) : ∀ l : List Char, (∀ x ∈ l, x ≠ c) → splitChar c l = [l]
  | [], _ => rfl
  | x :: xs, h => by
    have hx : x ≠ c := h x (List.mem_cons_self _ _)
    simp only [splitChar, if_neg hx,
      splitCharNone c xs (fun y hy => h y (List.mem_cons_of_mem _ hy))]

/-- Splitting peels off a separator-free first piece. -/
theorem splitCharAppend (c : Char) : ∀ a b : List Char, (∀ x ∈ a, x ≠ c) →
    splitChar c (a ++ c :: b) = a :: splitChar c b
  | [], b, _ => by simp [splitChar]
  | x :: a, b, h => by
    have hx : x ≠ c := h x (List.mem_cons_self _ _)
    simp only [List.cons_append, splitChar, if_neg hx, List.append_eq,
      splitCharAppend c a b (fun y hy => h y (List.mem_cons_of_mem _ hy))]

/-- Whitespace splitting emits the pending token at the first space. -/
theorem pySplitWsTok : ∀ (w zs acc : List Char), (acc = [] → w ≠ []) →
    (∀ x ∈ w, pyIsSpace x = false) →
    pySplitWsA (w ++ ' ' :: zs) acc = (acc.reverse ++ w) :: pySplitWsA zs []
  | [], zs, acc, hne, _ => by
    have hacc : ¬ acc = [] := fun h => (hne h) rfl
    simp [pySplitWsA, pyIsSpace, hacc]
  | w0 :: w, zs, acc, _, hsp => by
    have h0 : pyIsSpace w0 = false := hsp w0 (List.mem_cons_self _ _)
    have ih := pySplitWsTok w zs (w0 :: acc) (fun h => absurd h (by simp))
      (fun x hx => hsp x (List.mem_cons_of_mem _ hx))
    simp only [List.cons_append, pySplitWsA, h0, Bool.false_eq_true, if_false, List.append_eq,
      ih, List.reverse_cons, List.append_assoc, List.cons_append, List.nil_append]

/-- Leading whitespace is skipped when no token is pending. -/
theorem pySplitWsSpaceSkip (xs : List Char) : pySplitWsA (' ' :: xs) [] = pySplitWsA xs [] := by
  simp [pySplitWsA, pyIsSpace]

/-- A digit differs from any non-digit character. -/
theorem digitNeChar (c y : Char) (hc : c.isDigit = true) (hy : y.isDigit = false) : c ≠ y := by
  rintro rfl
  rw [hc] at hy
  cases hy

/-- Digits are not Python whitespace. -/
theorem digitNotSpace (c : Char) (hc : c.isDigit = true) : pyIsSpace c = false := by
  have h1 := digitNeChar c ' ' hc (by decide)
  have h2 := digitNeChar c '\t' hc (by decide)
  have h3 := digitNeChar c '\n' hc (by decide)
  have h4 := digitNeChar c '\r' hc (by decide)
  have h5 := digitNeChar c '\x0b' hc (by decide)
  have h6 := digitNeChar c '\x0c' hc (by decide)
  simp [pyIsSpace, h1, h2, h3, h4, h5, h6]

/-- All-digit tails are well-formed `int()` bodies. -/
theorem intTailOkDigits : ∀ ds : List Char, (∀ c ∈ ds, c.isDigit = true) → intTailOk ds = true
  | [], _ => rfl
  | c :: cs, h => by
    have hc := h c (List.mem_cons_self _ _)
    unfold intTailOk
    rw [hc]
    simp [intTailOkDigits cs (fun y hy => h y (List.mem_cons_of_mem _ hy))]

/-- Python `int()` on a nonempty digit string returns its value. -/
theorem pyIntDigits (ds : List Char) (hne : ds ≠ []) (hd : ∀ c ∈ ds, c.isDigit = true) :
    pyInt ds = some ((digitsToNat ds : Nat) : Int) := by
  cases ds with
  | nil => exact absurd rfl hne
  | cons c cs =>
    have hc := hd c (List.mem_cons_self _ _)
    have hcm : c ≠ '-' := digitNeChar c '-' hc (by decide)
    have hcp : c ≠ '+' := digitNeChar c '+' hc (by decide)
    have hbody : intBodyOk (c :: cs) = true := by
      simp [intBodyOk, hc, intTailOkDigits cs (fun y hy => hd y (List.mem_cons_of_mem _ hy))]
    have hfilter : (c :: cs).filter (fun x => !decide (x = '_')) = c :: cs := by
      rw [List.filter_eq_self]
      intro x hx
      simp [digitNeChar x '_' (hd x hx) (by decide)]
    simp [pyInt, if_neg hcm, if_neg hcp, pyNatBody, hbody, hfilter]

/-- The Unix grammar on a standard summary line copies both packet counts
verbatim (the loss group matches `0%`), from the all-zero initial state. -/
theorem unixLineSummary (ds rs : List Char)
    (hdne : ds ≠ []) (hdd : ∀ c ∈ ds, c.isDigit = true)
    (hrne : rs ≠ []) (hrd : ∀ c ∈ rs, c.isDigit = true) :
    unixLine (unixSummaryLine ds rs) stats0 =
      ({ packets_sent := ((digitsToNat ds : Nat) : Int),
         packets_received := ((digitsToNat rs : Nat) : Int),
         packet_loss := 0, min_time := 0, max_time := 0, avg_time := 0 }, true) := by
  have hcont : containsSub litPktTrans (unixSummaryLine ds rs) = true := by
    apply containsSubOfEq litPktTrans (ds ++ [' '])
      (", ".data ++ (rs ++ " received, 0% packet loss".data))
    have h1 : " packets transmitted, ".data = [' '] ++ (litPktTrans ++ ", ".data) := by decide
    simp [unixSummaryLine, h1, litPktTrans, List.append_assoc]
  have hAfree : ∀ x ∈ ds ++ " packets transmitted".data, x ≠ ',' := by
    intro x hx
    rcases List.mem_append.mp hx with hx | hx
    · exact digitNeChar x ',' (hdd x hx) (by decide)
    · exact (by decide : ∀ y ∈ " packets transmitted".data, y ≠ ',') x hx
  have hBfree : ∀ x ∈ ' ' :: (rs ++ " received".data), x ≠ ',' := by
    intro x hx
    rcases List.mem_cons.mp hx with rfl | hx
    · decide
    · rcases List.mem_append.mp hx with hx | hx
      · exact digitNeChar x ',' (hrd x hx) (by decide)
      · exact (by decide : ∀ y ∈ " received".data, y ≠ ',') x hx
  have hCfree : ∀ x ∈ " 0% packet loss".data, x ≠ ',' := by decide
  have hline : unixSummaryLine ds rs =
      (ds ++ " packets transmitted".data) ++ ',' ::
        ((' ' :: (rs ++ " received".data)) ++ ',' :: " 0% packet loss".data) := by
    have h1 : " packets transmitted, ".data = " packets transmitted".data ++ ',' :: [' '] := by
      decide
    have h2 : " received, 0% packet loss".data =
        " received".data ++ ',' :: " 0% packet loss".data := by decide
    simp [unixSummaryLine, h1, h2, List.append_assoc]
  have hsplit : splitChar ',' (unixSummaryLine ds rs) =
      [ds ++ " packets transmitted".data, ' ' :: (rs ++ " received".data),
       " 0% packet loss".data] := by
    rw [hline, splitCharAppend ',' _ _ hAfree, splitCharAppend ',' _ _ hBfree,
        splitCharNone ',' _ hCfree]
  have htokA : (pySplitWs (ds ++ " packets transmitted".data)).head? = some ds := by
    have h3 : " packets transmitted".data = ' ' :: "packets transmitted".data := by decide
    rw [h3]
    unfold pySplitWs
    rw [pySplitWsTok ds _ [] (fun _ => hdne) (fun x hx => digitNotSpace x (hdd x hx))]
    simp
  have htokB : (pySplitWs (' ' :: (rs ++ " received".data))).head? = some rs := by
    have h3 : " received".data = ' ' :: "received".data := by decide
    unfold pySplitWs
    rw [pySplitWsSpaceSkip, h3,
        pySplitWsTok rs _ [] (fun _ => hrne) (fun x hx => digitNotSpace x (hrd x hx))]
    simp
  have hre : reSearchLDL [] ['%'] " 0% packet loss".data = some 0 := by decide
  have hiA := pyIntDigits ds hdne hdd
  have hiB := pyIntDigits rs hrne hrd
  unfold unixLine
  simp only [hcont, eq_self_iff_true, if_true, hsplit, List.headD_cons, htokA, hiA,
    List.getElem?_cons_succ, List.getElem?_cons_zero, htokB, hiB, List.length_cons,
    List.length_nil, List.getD_cons_succ, List.getD_cons_zero, hre]
  norm_num [stats0]

/-- A one-line input runs exactly one loop iteration, raising or not. -/
theorem unixLoopSingle (l : List Char) (st : PingStats) :
    unixLoop [l] st = (unixLine l st).1 := by
  simp only [unixLoop]
  cases hu : unixLine l st with
  | mk st2 ok =>
    cases ok
    · simp
    · simp [unixLoop]

/-- Claim C2, amended: the parser does not enforce `received ≤ sent`; it
copies both counts from the summary line (see the counterexample).  For any
standard Unix summary line `<sent> packets transmitted, <received> received,
0% packet loss` whose reported counts satisfy `received ≤ sent` — as every
genuine ping output does — the parsed statistics satisfy
`packets_received ≤ packets_sent`. -/
theorem receivedLeSentStandardLine (ds rs : List Char)
    (hdne : ds ≠ []) (hdd : ∀ c ∈ ds, c.isDigit = true)
    (hrne : rs ≠ []) (hrd : ∀ c ∈ rs, c.isDigit = true)
    (hle : digitsToNat rs ≤ digitsToNat ds) :
    (extract_ping_stats Platform.unix (unixSummaryLine ds rs)).packets_sent =
      ((digitsToNat ds : Nat) : Int) ∧
    (extract_ping_stats Platform.unix (unixSummaryLine ds rs)).packets_received =
      ((digitsToNat rs : Nat) : Int) ∧
    (extract_ping_stats Platform.unix (unixSummaryLine ds rs)).packets_received ≤
      (extract_ping_stats Platform.unix (unixSummaryLine ds rs)).packets_sent := by
  have hnl : ∀ x ∈ unixSummaryLine ds rs, x ≠ '\n' := by
    intro x hx
    simp only [unixSummaryLine, List.append_assoc, List.mem_append] at hx
    rcases hx with hx | hx | hx | hx
    · exact digitNeChar x '\n' (hdd x hx) (by decide)
    · exact (by decide : ∀ y ∈ " packets transmitted, ".data, y ≠ '\n') x hx
    · exact digitNeChar x '\n' (hrd x hx) (by decide)
    · exact (by decide : ∀ y ∈ " received, 0% packet loss".data, y ≠ '\n') x hx
  have hext : extract_ping_stats Platform.unix (unixSummaryLine ds rs) =
      (unixLine (unixSummaryLine ds rs) stats0).1 := by
    unfold extract_ping_stats
    dsimp only
    rw [splitCharNone '\n' _ hnl]
    exact unixLoopSingle _ _
  rw [hext, unixLineSummary ds rs hdne hdd hrne hrd]
  refine ⟨rfl, rfl, ?_⟩
  dsimp only
  exact_mod_cast hle

/-- Witness for the amended C2 at the line `4 packets transmitted, 2 received,
0% packet loss`. -/
theorem receivedLeSentStandardLineWitness :
    (extract_ping_stats Platform.unix (unixSummaryLine ['4'] ['2'])).packets_sent = 4 ∧
    (extract_ping_stats Platform.unix (unixSummaryLine ['4'] ['2'])).packets_received = 2 ∧
    (extract_ping_stats Platform.unix (unixSummaryLine ['4'] ['2'])).packets_received ≤
      (extract_ping_stats Platform.unix (unixSummaryLine ['4'] ['2'])).packets_sent := by
  have h := receivedLeSentStandardLine ['4'] ['2'] (by decide) (by decide) (by decide)
    (by decide) (by decide)
  refine ⟨?_, ?_, h.2.2⟩
  · rw [h.1]; decide
  · rw [h.2.1]; decide
